import Mathlib

/-!
Verification of the Observation Scoring Engine of the ISRT repository
(`src/app.py`): the observation normalizer, score calculator, cohort
ranker and bulk recalculation job, embedded shallowly over rational
arithmetic, together with the configuration-write validation.
-/

set_option maxHeartbeats 1000000

namespace ISRT

/-- Association-list lookup, modelling Python `dict.get`. -/
def alookup {α : Type} (k : String) : List (String × α) → Option α
  | [] => none
  | (k', v) :: rest => if k' = k then some v else alookup k rest

/-- `round(x, 2)` — rounding to two decimal places. -/
def round2 (q : ℚ) : ℚ := (round (q * 100) : ℤ) / 100

/-- One entry of `obs_config["parameters"]`: display label and intensity. -/
structure ParamInfo where
  label : String
  intensity : Int
  deriving Repr, DecidableEq

/-- One entry of `obs_config["weights"]`: percentage weight and policy maximum. -/
structure WeightConf where
  weight : Int
  max_policy : Int
  deriving Repr, DecidableEq

/-- The scoring configuration loaded from `observation_parameters.json`:
`parameters`, `weights` and the two `violation` blend weights. -/
structure ObsConfig where
  parameters : List (String × ParamInfo)
  weights : List (String × WeightConf)
  non_conformance : Int
  pvi_weight : Int
  deriving Repr, DecidableEq

/-- The `frontend_to_param` map of `save_observation`. -/
def frontend_to_param : List (String × String) :=
  [("obsGot", "got"), ("obsUnreg", "unreg"), ("obsPersonnel", "personnel"),
   ("obsRequirements", "requirements"), ("obsUnregPremise", "unregPremise"),
   ("obsMedicalPractices", "medicalPractices"), ("obsDldmNotAllowed", "dldmNotAllowed")]

/-- Value of a decimal-digit string, as built by
`int(''.join(filter(str.isdigit, s)))`, with the empty string giving 0. -/
def digitsVal (cs : List Char) : Nat :=
  cs.foldl (fun acc c => acc * 10 + (c.toNat - Char.toNat '0')) 0

/-- `''.join(filter(str.isdigit, str(raw)))` then `int(...) if cleaned else 0`. -/
def parse_magnitude (s : String) : Nat :=
  digitsVal (s.data.filter Char.isDigit)

/-- The three quantities accumulated by the normalization loop of
`save_observation`: `obs_readable`, `obs_values_saved`, `intensity`. -/
structure NormResult where
  obs_readable : List String
  obs_values_saved : List (String × Nat)
  intensity : Int
  deriving Repr, DecidableEq

/-- The `for obs_key in obs_data` loop of `save_observation`: resolve the
frontend key, look the parameter up in the configuration, collect its label
and intensity, and record a digit-stripped magnitude for truthy raw values. -/
def normalize_loop (cfg : ObsConfig) (defect_values : List (String × String)) :
    List String → NormResult
  | [] => ⟨[], [], 0⟩
  | obs_key :: rest =>
    let r := normalize_loop cfg defect_values rest
    match alookup obs_key frontend_to_param with
    | none => r
    | some param_key =>
      match alookup param_key cfg.parameters with
      | none => r
      | some param_info =>
        match alookup obs_key defect_values with
        | none => ⟨param_info.label :: r.obs_readable, r.obs_values_saved,
                   param_info.intensity + r.intensity⟩
        | some raw =>
          if raw = "" then
            ⟨param_info.label :: r.obs_readable, r.obs_values_saved,
             param_info.intensity + r.intensity⟩
          else
            ⟨param_info.label :: r.obs_readable,
             (param_key, parse_magnitude raw) :: r.obs_values_saved,
             param_info.intensity + r.intensity⟩

/-- `pvi_raw` as computed in the submission path: sum over all configured
weight entries of recorded magnitude times `weight / 100`. -/
def pviRawSave (cfg : ObsConfig) (saved : List (String × Nat)) : ℚ :=
  (cfg.weights.map (fun kc =>
    (((alookup kc.1 saved).getD 0 : Nat) : ℚ) * ((kc.2.weight : ℚ) / 100))).sum

/-- `total_policy_max`: sum of `max_policy * weight / 100` over the weights. -/
def totalPolicyMax (cfg : ObsConfig) : ℚ :=
  (cfg.weights.map (fun kc => (kc.2.max_policy : ℚ) * ((kc.2.weight : ℚ) / 100))).sum

/-- A stored observation record as appended by `save_observation`:
raw inputs (`date`, label list, `defect_values`) plus derived fields. -/
structure Observation where
  date : String
  observations : List String
  defect_values : List (String × Nat)
  intensity : Int
  pvi_raw : ℚ
  absolute_pvi : ℚ
  deriving Repr, DecidableEq

/-- The observation record built and appended by `save_observation`:
when `none_selected` the loop is skipped and the label list is `["None"]`;
`pvi_raw` is stored rounded while `absolute_pvi` divides the unrounded value
by `total_policy_max` when that is positive, else 0. -/
def mkObservation (cfg : ObsConfig) (obs_date : String) (obs_data : List String)
    (defect_values : List (String × String)) (none_selected : Bool) : Observation :=
  let r := if none_selected then (⟨[], [], 0⟩ : NormResult)
           else normalize_loop cfg defect_values obs_data
  let pvi_raw := pviRawSave cfg r.obs_values_saved
  let pm := totalPolicyMax cfg
  { date := obs_date
    observations := if none_selected then ["None"] else r.obs_readable
    defect_values := r.obs_values_saved
    intensity := r.intensity
    pvi_raw := round2 pvi_raw
    absolute_pvi := if 0 < pm then round2 (pvi_raw / pm * 100) else 0 }

/-- A premise record: identity, static attributes, observation history,
and the derived aggregate fields. -/
structure Premise where
  id : Nat
  name : String
  category : String
  region : String
  district : String
  location : String
  latitude : String
  longitude : String
  observations : List Observation
  total_intensity : Int
  average_intensity : ℚ
  total_pvi_raw : ℚ
  average_pvi_raw : ℚ
  total_absolute_pvi : ℚ
  average_absolute_pvi : ℚ
  relative_pvi : ℚ
  violation_rate : ℚ
  relative_violation_rate : ℚ
  deriving Repr, DecidableEq

/-- Static attributes of a premise row in the external store. -/
structure ExtPremise where
  name : String
  category : String
  region : String
  district : String
  location : String
  latitude : String
  longitude : String
  deriving Repr, DecidableEq

/-- The premise record created by `save_observation` when the id is not in
the local store: external attributes when a row exists, otherwise the
placeholders `"Premise {id}"`, `"Unknown"` and empty coordinates. -/
def newPremise (pid : Nat) (ext : Option ExtPremise) : Premise :=
  { id := pid
    name := match ext with | none => "Premise " ++ toString pid | some e => e.name
    category := match ext with | none => "Unknown" | some e => e.category
    region := match ext with | none => "Unknown" | some e => e.region
    district := match ext with | none => "Unknown" | some e => e.district
    location := match ext with | none => "Unknown" | some e => e.location
    latitude := match ext with | none => "" | some e => e.latitude
    longitude := match ext with | none => "" | some e => e.longitude
    observations := []
    total_intensity := 0
    average_intensity := 0
    total_pvi_raw := 0
    average_pvi_raw := 0
    total_absolute_pvi := 0
    average_absolute_pvi := 0
    relative_pvi := 0
    violation_rate := 0
    relative_violation_rate := 0 }

/-- The totals-and-averages block of `save_observation`: totals over the
whole history; averages divide the (already rounded) totals by the count. -/
def updateAggregates (p : Premise) : Premise :=
  let n : Nat := p.observations.length
  let ti : Int := (p.observations.map (·.intensity)).sum
  let tpr : ℚ := round2 ((p.observations.map (·.pvi_raw)).sum)
  let tap : ℚ := round2 ((p.observations.map (·.absolute_pvi)).sum)
  { p with
    total_intensity := ti
    average_intensity := if 0 < n then round2 ((ti : ℚ) / n) else 0
    total_pvi_raw := tpr
    average_pvi_raw := if 0 < n then round2 (tpr / n) else 0
    total_absolute_pvi := tap
    average_absolute_pvi := if 0 < n then round2 (tap / n) else 0 }

/-- Membership in the `relative_set`:
`(p.get('district')==filter_district) or not filter_district`. -/
def inCohort (fd : Option String) (p : Premise) : Bool :=
  match fd with
  | none => true
  | some d => p.district == d

/-- `max` over a nonempty list, as Python `max(...)`; 0 on the empty list
(where Python would raise, a case the theorems exclude). -/
def listMaxQ : List ℚ → ℚ
  | [] => 0
  | x :: xs => xs.foldl max x

/-- A premise's total raw PVI: `sum(o.get('pvi_raw',0) for o in observations)`. -/
def totalPviOf (p : Premise) : ℚ := (p.observations.map (·.pvi_raw)).sum

/-- The relative-PVI block of `save_observation`: over the district-filtered
set, compute the maximum total raw PVI (`or 1` replaces an exact 0), then
assign each member `round(total/max*100, 2)`. -/
def rankRelative (premises : List Premise) (fd : Option String) : List Premise :=
  let m := listMaxQ ((premises.filter (inCohort fd)).map totalPviOf)
  let m' := if m = 0 then 1 else m
  premises.map (fun p =>
    if inCohort fd p then { p with relative_pvi := round2 (totalPviOf p / m' * 100) }
    else p)

/-- The violation-rate block of `save_observation`, applied to the saved
premise after the relative-PVI pass. -/
def withViolationRates (cfg : ObsConfig) (p : Premise) : Premise :=
  { p with
    violation_rate := round2 (p.average_intensity * (cfg.non_conformance : ℚ) / 100 +
      p.average_absolute_pvi * (cfg.pvi_weight : ℚ) / 100)
    relative_violation_rate := round2 (p.average_intensity * (cfg.non_conformance : ℚ) / 100 +
      p.relative_pvi * (cfg.pvi_weight : ℚ) / 100) }

/-- Update the first premise with the given id, as Python's
`next(p for p in premises if p['id'] == premise_id)` followed by in-place
mutation. -/
def updateFirstById (pid : Nat) (f : Premise → Premise) : List Premise → List Premise
  | [] => []
  | p :: ps => if p.id = pid then f p :: ps else p :: updateFirstById pid f ps

/-- Outcome of the `save_observation` handler: a 400 for missing fields, an
unhandled exception (the empty-cohort `max()`), or a JSON response carrying
`success` together with the durable store contents after the request. -/
inductive SaveResult
  | badRequest
  | crashed
  | responded (success : Bool) (store : List Premise)
  deriving Repr, DecidableEq

/-- The first half of the `save_observation` handler after validation:
normalize and score the observation, find or create the premise, append the
observation and recompute that premise's totals and averages. -/
def save_observation_ps2 (cfg : ObsConfig) (premises : List Premise)
    (premise_id : Nat) (obs_date : String) (obs_data : List String)
    (defect_values : List (String × String)) (none_selected : Bool)
    (ext : Option ExtPremise) : List Premise :=
  let obs := mkObservation cfg obs_date obs_data defect_values none_selected
  let ps1 := if premises.any (fun p => p.id == premise_id) then premises
             else premises ++ [newPremise premise_id ext]
  updateFirstById premise_id
    (fun p => updateAggregates { p with observations := p.observations ++ [obs] }) ps1

/-- The `save_observation` handler: validate, build the updated premise
list, re-rank the district cohort (raising when the cohort is empty), set
the saved premise's violation rates, then persist. A raised store write is
caught and logged (`except ... print`), after which the handler still
answers `{'success': True}`; the durable store keeps its prior contents in
that case. -/
def save_observation_endpoint (cfg : ObsConfig) (premises : List Premise)
    (premise_id : Nat) (obs_date : String) (obs_data : List String)
    (defect_values : List (String × String)) (none_selected : Bool)
    (filter_district : Option String) (ext : Option ExtPremise)
    (persist_fails : Bool) : SaveResult :=
  if premise_id = 0 ∨ obs_date = "" then .badRequest
  else
    let ps2 := save_observation_ps2 cfg premises premise_id obs_date obs_data
      defect_values none_selected ext
    if ps2.filter (inCohort filter_district) = [] then .crashed
    else
      let ps3 := rankRelative ps2 filter_district
      let ps4 := updateFirstById premise_id (withViolationRates cfg) ps3
      if persist_fails then .responded true premises else .responded true ps4

/-- The bulk job's per-observation intensity: sum of configured intensities
over parameters whose key occurs among the recorded magnitude keys or
verbatim in the stored label list
(`if param_key in defect_values or param_key in obs['observations']`). -/
def recalc_intensity (cfg : ObsConfig) (labels : List String)
    (dv : List (String × Nat)) : Int :=
  (cfg.parameters.map (fun ki =>
    if (alookup ki.1 dv).isSome || labels.contains ki.1 then ki.2.intensity else 0)).sum

/-- One term of the bulk job's `pvi_raw` sum:
`if weight > 0 and value > 0: pvi_raw += (weight / 100.0) * value`. -/
def recalcPviTerm (dv : List (String × Nat)) (kc : String × WeightConf) : ℚ :=
  if 0 < kc.2.weight ∧ 0 < (alookup kc.1 dv).getD 0 then
    ((kc.2.weight : ℚ) / 100) * (((alookup kc.1 dv).getD 0 : ℕ) : ℚ)
  else 0

/-- The bulk job's per-observation `pvi_raw`: terms with non-positive weight
or magnitude are skipped. -/
def recalc_pvi_raw (cfg : ObsConfig) (dv : List (String × Nat)) : ℚ :=
  (cfg.weights.map (recalcPviTerm dv)).sum

/-- The bulk job's rewrite of one observation's derived fields. -/
def recalcObsUpdate (cfg : ObsConfig) (o : Observation) : Observation :=
  let pr := recalc_pvi_raw cfg o.defect_values
  let pm := totalPolicyMax cfg
  { date := o.date
    observations := o.observations
    defect_values := o.defect_values
    intensity := recalc_intensity cfg o.observations o.defect_values
    pvi_raw := round2 pr
    absolute_pvi := if 0 < pm then round2 (pr / pm * 100) else 0 }

/-- First pass of `recalculate_all` over one premise: rewrite every
observation's derived fields and the premise totals/averages; also return
the unrounded total raw PVI tracked for the global maximum. -/
def recalc_premise_pass1 (cfg : ObsConfig) (p : Premise) : Premise × ℚ :=
  let obsNew := p.observations.map (recalcObsUpdate cfg)
  let total_pvi_raw : ℚ := (p.observations.map (fun o => recalc_pvi_raw cfg o.defect_values)).sum
  let total_absolute_pvi : ℚ := (obsNew.map (·.absolute_pvi)).sum
  let total_intensity : Int := (obsNew.map (·.intensity)).sum
  let n := p.observations.length
  ({ p with
      observations := obsNew
      total_intensity := total_intensity
      average_intensity := if 0 < n then round2 ((total_intensity : ℚ) / n) else 0
      total_pvi_raw := round2 total_pvi_raw
      average_pvi_raw := if 0 < n then round2 (total_pvi_raw / n) else 0
      total_absolute_pvi := round2 total_absolute_pvi
      average_absolute_pvi := if 0 < n then round2 (total_absolute_pvi / n) else 0 },
   total_pvi_raw)

/-- Second pass of `recalculate_all` over one premise: relative PVI from the
stored (rounded) per-observation values against the global maximum, then
the two violation rates. -/
def recalc_premise_pass2 (cfg : ObsConfig) (maxg : ℚ) (p : Premise) : Premise :=
  let total := (p.observations.map (·.pvi_raw)).sum
  let rel := if 0 < maxg then round2 (total / maxg * 100) else 0
  { p with
    relative_pvi := rel
    violation_rate := round2 (p.average_intensity * (cfg.non_conformance : ℚ) / 100 +
      p.average_absolute_pvi * (cfg.pvi_weight : ℚ) / 100)
    relative_violation_rate := round2 (p.average_intensity * (cfg.non_conformance : ℚ) / 100 +
      rel * (cfg.pvi_weight : ℚ) / 100) }

/-- The bulk recalculation job `recalculate_all`: first pass over every
premise tracking the global maximum unrounded total raw PVI (initialised 0),
then the ranking pass against that maximum. -/
def recalculate_all (cfg : ObsConfig) (premises : List Premise) : List Premise :=
  let pass1 := premises.map (recalc_premise_pass1 cfg)
  let maxg := (pass1.map Prod.snd).foldl max 0
  pass1.map (fun pr => recalc_premise_pass2 cfg maxg pr.1)

/-- Python `int(float(x))`: truncation toward zero. -/
def pyIntTrunc (q : ℚ) : Int := if 0 ≤ q then ⌊q⌋ else ⌈q⌉

/-- Validation of one violation-blend value in `save_parameters`: `none`
stands for a value `int(float(...))` cannot coerce; an in-range coerced
value is stored, an out-of-range one rejects the write. -/
def validate_blend_value (q : Option ℚ) : Except String Int :=
  match q with
  | none => Except.error "Invalid value"
  | some v =>
    let vi := pyIntTrunc v
    if vi < 0 ∨ 100 < vi then Except.error "must be between 0 and 100"
    else Except.ok vi

/-- The `violation` section of `save_parameters`: both blend values must
validate, in order, for the write to proceed. -/
def validate_violation (nc pv : Option ℚ) : Except String (Int × Int) :=
  match validate_blend_value nc with
  | Except.error e => Except.error e
  | Except.ok a =>
    match validate_blend_value pv with
    | Except.error e => Except.error e
    | Except.ok b => Except.ok (a, b)

/-! ### Arithmetic helper lemmas -/

theorem round2_mono {x y : ℚ} (h : x ≤ y) : round2 x ≤ round2 y := by
  unfold round2
  have hr : round (x * 100) ≤ round (y * 100) := by
    rw [round_eq, round_eq]
    exact Int.floor_mono (by linarith)
  exact (div_le_div_iff_of_pos_right (by norm_num)).mpr (by exact_mod_cast hr)

theorem round2_intDiv (m : ℤ) : round2 ((m : ℚ) / 100) = (m : ℚ) / 100 := by
  unfold round2
  rw [div_mul_cancel₀ _ (by norm_num : (100 : ℚ) ≠ 0), round_intCast]

theorem round2_hundred : round2 (100 : ℚ) = 100 := by
  norm_num [round2, round_eq]

theorem round2_zero : round2 (0 : ℚ) = 0 := by
  norm_num [round2, round_eq]

theorem round2_fix_of_exact {q : ℚ} (h : ∃ m : ℤ, q = (m : ℚ) / 100) :
    round2 q = q := by
  obtain ⟨m, rfl⟩ := h
  exact round2_intDiv m

theorem list_sum_div100 (l : List ℚ) (h : ∀ x ∈ l, ∃ m : ℤ, x = (m : ℚ) / 100) :
    ∃ m : ℤ, l.sum = (m : ℚ) / 100 := by
  induction l with
  | nil => exact ⟨0, by simp⟩
  | cons x xs ih =>
    obtain ⟨m, hm⟩ := h x (by simp)
    obtain ⟨n, hn⟩ := ih (fun y hy => h y (by simp [hy]))
    refine ⟨m + n, ?_⟩
    rw [List.sum_cons, hm, hn]
    push_cast
    ring

/-- Every submission-path `pvi_raw` is an integer number of hundredths, so
storing it rounded to two decimals loses nothing. -/
theorem pviRawSave_exact (cfg : ObsConfig) (saved : List (String × Nat)) :
    ∃ m : ℤ, pviRawSave cfg saved = (m : ℚ) / 100 := by
  apply list_sum_div100
  intro x hx
  simp only [pviRawSave] at hx ⊢
  obtain ⟨kc, _, rfl⟩ := List.mem_map.mp hx
  refine ⟨((alookup kc.1 saved).getD 0 : ℤ) * kc.2.weight, ?_⟩
  push_cast
  ring

theorem round2_pviRawSave (cfg : ObsConfig) (saved : List (String × Nat)) :
    round2 (pviRawSave cfg saved) = pviRawSave cfg saved :=
  round2_fix_of_exact (pviRawSave_exact cfg saved)

/-- Every bulk-job `pvi_raw` is an integer number of hundredths. -/
theorem recalc_pvi_raw_exact (cfg : ObsConfig) (dv : List (String × Nat)) :
    ∃ m : ℤ, recalc_pvi_raw cfg dv = (m : ℚ) / 100 := by
  apply list_sum_div100
  intro x hx
  simp only [recalc_pvi_raw] at hx
  obtain ⟨kc, _, rfl⟩ := List.mem_map.mp hx
  by_cases hc : 0 < kc.2.weight ∧ 0 < (alookup kc.1 dv).getD 0
  · refine ⟨kc.2.weight * ((alookup kc.1 dv).getD 0 : ℤ), ?_⟩
    rw [recalcPviTerm, if_pos hc]
    push_cast
    ring
  · refine ⟨0, ?_⟩
    rw [recalcPviTerm, if_neg hc]
    norm_num

theorem round2_recalc_pvi_raw (cfg : ObsConfig) (dv : List (String × Nat)) :
    round2 (recalc_pvi_raw cfg dv) = recalc_pvi_raw cfg dv :=
  round2_fix_of_exact (recalc_pvi_raw_exact cfg dv)

/-- The bulk job skips non-positive terms, so its `pvi_raw` is non-negative. -/
theorem recalc_pvi_raw_nonneg (cfg : ObsConfig) (dv : List (String × Nat)) :
    0 ≤ recalc_pvi_raw cfg dv := by
  apply List.sum_nonneg
  intro x hx
  simp only [recalc_pvi_raw] at hx
  obtain ⟨kc, _, rfl⟩ := List.mem_map.mp hx
  by_cases hc : 0 < kc.2.weight ∧ 0 < (alookup kc.1 dv).getD 0
  · rw [recalcPviTerm, if_pos hc]
    exact mul_nonneg (div_nonneg (by exact_mod_cast hc.1.le) (by norm_num))
      (Nat.cast_nonneg _)
  · rw [recalcPviTerm, if_neg hc]

theorem le_foldl_max (l : List ℚ) (a : ℚ) : a ≤ l.foldl max a := by
  induction l generalizing a with
  | nil => exact le_refl a
  | cons x xs ih => exact le_trans (le_max_left a x) (ih (max a x))

theorem foldl_max_le_of_mem {x : ℚ} {l : List ℚ} (a : ℚ) (h : x ∈ l) :
    x ≤ l.foldl max a := by
  induction l generalizing a with
  | nil => cases h
  | cons y ys ih =>
    rcases List.mem_cons.mp h with rfl | hmem
    · exact le_trans (le_max_right a x) (le_foldl_max ys (max a x))
    · exact ih (max a y) hmem

theorem foldl_max_eq_or_mem (l : List ℚ) (a : ℚ) :
    l.foldl max a = a ∨ l.foldl max a ∈ l := by
  induction l generalizing a with
  | nil => exact Or.inl rfl
  | cons x xs ih =>
    rcases ih (max a x) with h | h
    · rw [List.foldl_cons, h]
      rcases max_choice a x with h' | h'
      · exact Or.inl h'
      · exact Or.inr (by rw [h']; exact List.mem_cons_self x xs)
    · exact Or.inr (List.mem_cons_of_mem x h)

theorem listMaxQ_le_of_mem {x : ℚ} {l : List ℚ} (h : x ∈ l) : x ≤ listMaxQ l := by
  cases l with
  | nil => cases h
  | cons y ys =>
    rcases List.mem_cons.mp h with rfl | hmem
    · exact le_foldl_max ys x
    · exact foldl_max_le_of_mem y hmem

theorem listMaxQ_mem {l : List ℚ} (h : l ≠ []) : listMaxQ l ∈ l := by
  cases l with
  | nil => exact absurd rfl h
  | cons y ys =>
    rcases foldl_max_eq_or_mem ys y with h' | h'
    · exact List.mem_cons.mpr (Or.inl h')
    · exact List.mem_cons_of_mem y h'

/-! ### Shared concrete test fixtures -/

/-- A well-formed configuration: one parameter `got` with display label
distinct from its key, weight 50 and policy maximum 1000. -/
def cfgW : ObsConfig :=
  ⟨[("got", ⟨"GOT defects", 30⟩)], [("got", ⟨50, 1000⟩)], 70, 30⟩

/-- A configuration whose single weight entry is negative, as the external
configuration store could hold if edited outside `save_parameters`. -/
def cfgNegW : ObsConfig :=
  ⟨[("got", ⟨"GOT defects", 30⟩)], [("got", ⟨-50, 0⟩)], 70, 30⟩

/-! ### C7 — `noneSelected` forces the sentinel observation -/

/-- C7: for every submission with `noneSelected = true`, regardless of defect
flags and magnitudes also submitted, the recorded observation has the single
display label "None", an empty magnitude mapping, and intensity 0. -/
theorem c7_none_selected_sentinel (cfg : ObsConfig) (obs_date : String)
    (obs_data : List String) (defect_values : List (String × String)) :
    (mkObservation cfg obs_date obs_data defect_values true).observations = ["None"] ∧
    (mkObservation cfg obs_date obs_data defect_values true).defect_values = [] ∧
    (mkObservation cfg obs_date obs_data defect_values true).intensity = 0 :=
  ⟨rfl, rfl, rfl⟩

/-! ### C3 — which path skips non-positive PVI terms -/

/-- C3 counterexample: under a configuration holding a negative weight, the
submission path records a negative `pvi_raw` (-5 for magnitude 10 at weight
-50), so the claim that terms with non-positive weight are skipped in both
paths, and that `pvi_raw` never receives a negative contribution, is false
for the submission path. -/
theorem c3_counterexample :
    (mkObservation cfgNegW "2024-01-01" ["obsGot"] [("obsGot", "10")] false).pvi_raw = -5 ∧
    ¬ (0 ≤ (mkObservation cfgNegW "2024-01-01" ["obsGot"] [("obsGot", "10")] false).pvi_raw) := by
  have hn : normalize_loop cfgNegW [("obsGot", "10")] ["obsGot"] =
      ⟨["GOT defects"], [("got", 10)], 30⟩ := by rfl
  have hp : pviRawSave cfgNegW [("got", 10)] = -5 := by
    norm_num [pviRawSave, cfgNegW, alookup]
  have hobs : (mkObservation cfgNegW "2024-01-01" ["obsGot"] [("obsGot", "10")] false).pvi_raw
      = round2 (pviRawSave cfgNegW [("got", 10)]) := by
    simp only [mkObservation, Bool.false_eq_true, if_false, hn]
  rw [hobs, hp]
  norm_num [round2, round_eq]

/-- C3 amended: the skipping of terms with non-positive weight or magnitude
happens only in the bulk recalculation job; the submission path sums
`magnitude * weight / 100` over all weight entries. Under the configuration
contract (all weights non-negative) the two formulas coincide and neither
path produces a negative `pvi_raw`; the bulk job's value is non-negative
even without that hypothesis. -/
theorem c3_amended_paths_agree_on_nonneg_weights (cfg : ObsConfig)
    (dv : List (String × Nat)) (h : ∀ kc ∈ cfg.weights, 0 ≤ kc.2.weight) :
    pviRawSave cfg dv = recalc_pvi_raw cfg dv ∧
    0 ≤ pviRawSave cfg dv ∧ 0 ≤ recalc_pvi_raw cfg dv := by
  have heq : pviRawSave cfg dv = recalc_pvi_raw cfg dv := by
    unfold pviRawSave recalc_pvi_raw
    congr 1
    apply List.map_congr_left
    intro kc hkc
    have hw : 0 ≤ kc.2.weight := h kc hkc
    rw [recalcPviTerm]
    by_cases h1 : 0 < kc.2.weight
    · by_cases h2 : 0 < (alookup kc.1 dv).getD 0
      · rw [if_pos ⟨h1, h2⟩]
        ring
      · have hv0 : (alookup kc.1 dv).getD 0 = 0 := Nat.eq_zero_of_not_pos h2
        rw [if_neg (fun hc => h2 hc.2), hv0]
        norm_num
    · have hw0 : kc.2.weight = 0 := le_antisymm (not_lt.mp h1) hw
      rw [if_neg (fun hc => h1 hc.1), hw0]
      norm_num
  exact ⟨heq, heq ▸ recalc_pvi_raw_nonneg cfg dv, recalc_pvi_raw_nonneg cfg dv⟩

/-- C3 amended, witnessed at a concrete configuration and magnitude map. -/
theorem c3_amended_witness :
    pviRawSave cfgW [("got", 500)] = recalc_pvi_raw cfgW [("got", 500)] ∧
    0 ≤ pviRawSave cfgW [("got", 500)] ∧ 0 ≤ recalc_pvi_raw cfgW [("got", 500)] :=
  c3_amended_paths_agree_on_nonneg_weights cfgW [("got", 500)] (by decide)

/-! ### C5 — the absolute-PVI formula and its degenerate fallback -/

/-- C5: in both the submission path and the bulk job, `absolute_pvi` equals
`pvi_raw / policyMax * 100` rounded to two decimals when the weight-blended
policy maximum is positive, and is exactly 0 whenever that maximum is
non-positive; no exception arises in the degenerate case (the scoring
functions are total). -/
theorem c5_absolute_pvi_formula (cfg : ObsConfig) (obs_date : String)
    (obs_data : List String) (dvs : List (String × String)) (ns : Bool)
    (o : Observation) :
    (0 < totalPolicyMax cfg →
      (mkObservation cfg obs_date obs_data dvs ns).absolute_pvi =
        round2 ((mkObservation cfg obs_date obs_data dvs ns).pvi_raw /
          totalPolicyMax cfg * 100)) ∧
    (totalPolicyMax cfg ≤ 0 →
      (mkObservation cfg obs_date obs_data dvs ns).absolute_pvi = 0) ∧
    (0 < totalPolicyMax cfg →
      (recalcObsUpdate cfg o).absolute_pvi =
        round2 ((recalcObsUpdate cfg o).pvi_raw / totalPolicyMax cfg * 100)) ∧
    (totalPolicyMax cfg ≤ 0 → (recalcObsUpdate cfg o).absolute_pvi = 0) := by
  refine ⟨fun h => ?_, fun h => ?_, fun h => ?_, fun h => ?_⟩
  · simp only [mkObservation]
    rw [round2_pviRawSave, if_pos h]
  · simp only [mkObservation]
    rw [if_neg (not_lt.mpr h)]
  · simp only [recalcObsUpdate]
    rw [round2_recalc_pvi_raw, if_pos h]
  · simp only [recalcObsUpdate]
    rw [if_neg (not_lt.mpr h)]

/-- C5, witnessed: `cfgW` has policy maximum 500 > 0 and the formula holds
there; `cfgNegW` has policy maximum 0 and every observation scored under it
gets `absolute_pvi = 0`. -/
theorem c5_witness :
    (mkObservation cfgW "2024-01-01" ["obsGot"] [("obsGot", "500")] false).absolute_pvi =
      round2 ((mkObservation cfgW "2024-01-01" ["obsGot"] [("obsGot", "500")] false).pvi_raw /
        totalPolicyMax cfgW * 100) ∧
    (mkObservation cfgNegW "2024-01-01" ["obsGot"] [("obsGot", "10")] false).absolute_pvi = 0 := by
  constructor
  · exact (c5_absolute_pvi_formula cfgW "2024-01-01" ["obsGot"] [("obsGot", "500")] false
      ⟨"", [], [], 0, 0, 0⟩).1 (by norm_num [totalPolicyMax, cfgW])
  · exact (c5_absolute_pvi_formula cfgNegW "2024-01-01" ["obsGot"] [("obsGot", "10")] false
      ⟨"", [], [], 0, 0, 0⟩).2.1 (by norm_num [totalPolicyMax, cfgNegW])

/-! ### C8 — which keys the normalizer records magnitudes for -/

/-- A configuration whose `weights` section is empty while a parameter
exists: the normalizer still records a magnitude for the parameter key. -/
def cfgNoW : ObsConfig := ⟨[("got", ⟨"GOT defects", 30⟩)], [], 70, 30⟩

/-- C8 counterexample: under `cfgNoW` the submission records the magnitude
entry `("got", 500)` although `"got"` is not a key of `config.weights`
(which is empty), so recorded magnitudes are not limited to keys present in
`config.weights`. -/
theorem c8_counterexample :
    (mkObservation cfgNoW "2024-01-01" ["obsGot"] [("obsGot", "500")] false).defect_values
      = [("got", 500)] ∧
    alookup "got" cfgNoW.weights = none :=
  ⟨rfl, rfl⟩

/-- Provenance of every entry of `obs_values_saved`: it stems from a
submitted flag that resolves through `frontend_to_param` into
`config.parameters` and carried a truthy raw magnitude, whose digit-stripped
value it records. -/
theorem normalize_loop_saved_mem (cfg : ObsConfig) (dvs : List (String × String)) :
    ∀ (l : List String) (k : String) (v : Nat),
      (k, v) ∈ (normalize_loop cfg dvs l).obs_values_saved →
      (∃ pi, alookup k cfg.parameters = some pi) ∧
      ∃ ok ∈ l, alookup ok frontend_to_param = some k ∧
        ∃ raw, alookup ok dvs = some raw ∧ raw ≠ "" ∧ v = parse_magnitude raw := by
  intro l
  induction l with
  | nil => intro k v h; cases h
  | cons ok rest ih =>
    intro k v h
    rcases h1 : alookup ok frontend_to_param with _ | pk
    · simp only [normalize_loop, h1] at h
      obtain ⟨hpi, ok', hok', hres⟩ := ih k v h
      exact ⟨hpi, ok', List.mem_cons_of_mem ok hok', hres⟩
    · rcases h2 : alookup pk cfg.parameters with _ | pii
      · simp only [normalize_loop, h1, h2] at h
        obtain ⟨hpi, ok', hok', hres⟩ := ih k v h
        exact ⟨hpi, ok', List.mem_cons_of_mem ok hok', hres⟩
      · rcases h3 : alookup ok dvs with _ | raw
        · simp only [normalize_loop, h1, h2, h3] at h
          obtain ⟨hpi, ok', hok', hres⟩ := ih k v h
          exact ⟨hpi, ok', List.mem_cons_of_mem ok hok', hres⟩
        · by_cases hraw : raw = ""
          · simp only [normalize_loop, h1, h2, h3, if_pos hraw] at h
            obtain ⟨hpi, ok', hok', hres⟩ := ih k v h
            exact ⟨hpi, ok', List.mem_cons_of_mem ok hok', hres⟩
          · simp only [normalize_loop, h1, h2, h3, if_neg hraw] at h
            rcases List.mem_cons.mp h with hhd | htl
            · rw [Prod.mk.injEq] at hhd
              obtain ⟨rfl, rfl⟩ := hhd
              exact ⟨⟨pii, h2⟩, ok, List.mem_cons_self ok rest,
                h1, raw, h3, hraw, rfl⟩
            · obtain ⟨hpi, ok', hok', hres⟩ := ih k v htl
              exact ⟨hpi, ok', List.mem_cons_of_mem ok hok', hres⟩

/-- C8 amended: recorded magnitudes are limited to keys present in
`config.parameters` (selected flags resolved through the frontend map), not
`config.weights`; each value is the digit-stripped coercion of a truthy raw
value (a digit-free raw value yields 0), a falsy or missing raw value yields
no entry, and normalization is a total function (it never raises). -/
theorem c8_amended_magnitude_provenance (cfg : ObsConfig) (obs_date : String)
    (obs_data : List String) (dvs : List (String × String)) (ns : Bool)
    (k : String) (v : Nat)
    (hmem : (k, v) ∈ (mkObservation cfg obs_date obs_data dvs ns).defect_values) :
    ((∃ pi, alookup k cfg.parameters = some pi) ∧
      ∃ ok ∈ obs_data, alookup ok frontend_to_param = some k ∧
        ∃ raw, alookup ok dvs = some raw ∧ raw ≠ "" ∧ v = parse_magnitude raw) ∧
    ∀ s : String, s.data.filter Char.isDigit = [] → parse_magnitude s = 0 := by
  refine ⟨?_, fun s hs => by rw [parse_magnitude, hs]; rfl⟩
  cases ns with
  | false => exact normalize_loop_saved_mem cfg dvs obs_data k v hmem
  | true => cases hmem

/-- C8 amended, witnessed: `("got", 12)` is recorded for raw value `"12a"`
submitted under flag `obsGot`, and comes from `cfgW.parameters`. -/
theorem c8_amended_witness :
    ((∃ pi, alookup "got" cfgW.parameters = some pi) ∧
      ∃ ok ∈ ["obsGot"], alookup ok frontend_to_param = some "got" ∧
        ∃ raw, alookup ok [("obsGot", "12a")] = some raw ∧ raw ≠ "" ∧
          (12 : Nat) = parse_magnitude raw) ∧
    ∀ s : String, s.data.filter Char.isDigit = [] → parse_magnitude s = 0 :=
  c8_amended_magnitude_provenance cfgW "2024-01-01" ["obsGot"] [("obsGot", "12a")]
    false "got" 12 (by decide)

/-! ### C9 — blend values outside the range reject the write -/

/-- C9 counterexample: a submitted non-conformance blend value of 150 does
not result in a clamped stored value; `save_parameters` rejects the write
with a descriptive error. -/
theorem c9_counterexample :
    validate_violation (some 150) (some 30) =
      Except.error "must be between 0 and 100" := by
  have h : pyIntTrunc 150 = 150 := by
    rw [pyIntTrunc, if_pos (by norm_num)]
    norm_num
  simp only [validate_violation, validate_blend_value, h]
  norm_num

theorem validate_blend_ok_range {q : Option ℚ} {a : Int}
    (h : validate_blend_value q = Except.ok a) : 0 ≤ a ∧ a ≤ 100 := by
  cases q with
  | none => cases h
  | some v =>
    by_cases hc : pyIntTrunc v < 0 ∨ 100 < pyIntTrunc v
    · rw [validate_blend_value, if_pos hc] at h
      cases h
    · rw [validate_blend_value, if_neg hc] at h
      cases h
      push_neg at hc
      exact ⟨le_of_not_lt (fun hlt => hc.1.not_lt hlt), hc.2⟩

/-- C9 amended: the blend values are independently range-checked, not
clamped: a write succeeds only with both stored blend values integers in
[0, 100], and a value whose `int(float(...))` coercion falls outside that
range rejects the write with an error. -/
theorem c9_amended_blend_range_check (nc pv : Option ℚ) :
    (∀ a b : Int, validate_violation nc pv = Except.ok (a, b) →
      0 ≤ a ∧ a ≤ 100 ∧ 0 ≤ b ∧ b ≤ 100) ∧
    (∀ q : ℚ, (pyIntTrunc q < 0 ∨ 100 < pyIntTrunc q) →
      validate_violation (some q) pv = Except.error "must be between 0 and 100") := by
  constructor
  · intro a b h
    rcases h1 : validate_blend_value nc with e | a'
    · rw [validate_violation, h1] at h
      cases h
    · rcases h2 : validate_blend_value pv with e | b'
      · rw [validate_violation, h1, h2] at h
        cases h
      · rw [validate_violation, h1, h2] at h
        cases h
        obtain ⟨ha1, ha2⟩ := validate_blend_ok_range h1
        obtain ⟨hb1, hb2⟩ := validate_blend_ok_range h2
        exact ⟨ha1, ha2, hb1, hb2⟩
  · intro q hq
    rw [validate_violation, validate_blend_value, if_pos hq]

/-- C9 amended, witnessed: blends (70, 30) pass and lie in range; a
submitted value of 150 rejects the write. -/
theorem c9_amended_witness :
    (0 ≤ (70 : Int) ∧ (70 : Int) ≤ 100 ∧ 0 ≤ (30 : Int) ∧ (30 : Int) ≤ 100) ∧
    validate_violation (some 150) (some 30) =
      Except.error "must be between 0 and 100" := by
  constructor
  · apply (c9_amended_blend_range_check (some 70) (some 30)).1 70 30
    have h70 : pyIntTrunc 70 = 70 := by
      rw [pyIntTrunc, if_pos (by norm_num)]
      norm_num
    have h30 : pyIntTrunc 30 = 30 := by
      rw [pyIntTrunc, if_pos (by norm_num)]
      norm_num
    simp only [validate_violation, validate_blend_value, h70, h30]
    norm_num
  · apply (c9_amended_blend_range_check (some 150) (some 30)).2 150
    have h : pyIntTrunc 150 = 150 := by
      rw [pyIntTrunc, if_pos (by norm_num)]
      norm_num
    rw [h]
    norm_num

/-! ### C4 — what a persistence failure does to the submission -/

/-- C4 counterexample: with a valid submission against an empty store whose
persistence write raises, the handler still answers a success payload (the
store keeping its prior contents), so a persistence failure does not fail
the submission. -/
theorem c4_counterexample :
    save_observation_endpoint cfgW [] 1 "2024-01-01" [] [] true none none true
      = SaveResult.responded true [] := rfl

/-- The two response shapes of a validated submission whose cohort is
non-empty: with a raised store write the durable store keeps the input list;
with a successful write it holds the fully updated list. Both respond with
the success payload. -/
theorem save_observation_responses (cfg : ObsConfig)
    (premises : List Premise) (pid : Nat) (obs_date : String)
    (obs_data : List String) (dvs : List (String × String)) (ns : Bool)
    (fd : Option String) (ext : Option ExtPremise)
    (hpid : pid ≠ 0) (hdate : obs_date ≠ "")
    (hcoh : (save_observation_ps2 cfg premises pid obs_date obs_data dvs ns ext).filter
      (inCohort fd) ≠ []) :
    save_observation_endpoint cfg premises pid obs_date obs_data dvs ns fd ext true
      = SaveResult.responded true premises ∧
    save_observation_endpoint cfg premises pid obs_date obs_data dvs ns fd ext false
      = SaveResult.responded true (updateFirstById pid (withViolationRates cfg)
          (rankRelative (save_observation_ps2 cfg premises pid obs_date obs_data dvs ns ext) fd)) := by
  constructor <;>
    · rw [save_observation_endpoint, if_neg (by simp [hpid, hdate]), if_neg hcoh]
      rfl

/-- C4 amended: a raised store write is caught and logged, after which the
handler still returns the success payload; the durable store is left with
its prior contents (no partial write), identical to the input list, while a
successful write stores the fully updated list. The caller cannot
distinguish the two outcomes from the response. -/
theorem c4_amended_persistence_failure_swallowed (cfg : ObsConfig)
    (premises : List Premise) (pid : Nat) (obs_date : String)
    (obs_data : List String) (dvs : List (String × String)) (ns : Bool)
    (fd : Option String) (ext : Option ExtPremise)
    (hpid : pid ≠ 0) (hdate : obs_date ≠ "")
    (hcoh : (save_observation_ps2 cfg premises pid obs_date obs_data dvs ns ext).filter
      (inCohort fd) ≠ []) :
    save_observation_endpoint cfg premises pid obs_date obs_data dvs ns fd ext true
      = SaveResult.responded true premises ∧
    save_observation_endpoint cfg premises pid obs_date obs_data dvs ns fd ext false
      = SaveResult.responded true (updateFirstById pid (withViolationRates cfg)
          (rankRelative (save_observation_ps2 cfg premises pid obs_date obs_data dvs ns ext) fd)) :=
  save_observation_responses cfg premises pid obs_date obs_data dvs ns fd ext
    hpid hdate hcoh

/-- C4 amended, witnessed at the counterexample's concrete submission. -/
theorem c4_amended_witness :
    save_observation_endpoint cfgW [] 1 "2024-01-01" [] [] true (some "Unknown") none true
      = SaveResult.responded true [] ∧
    save_observation_endpoint cfgW [] 1 "2024-01-01" [] [] true (some "Unknown") none false
      = SaveResult.responded true (updateFirstById 1 (withViolationRates cfgW)
          (rankRelative (save_observation_ps2 cfgW [] 1 "2024-01-01" [] [] true none)
            (some "Unknown"))) :=
  c4_amended_persistence_failure_swallowed cfgW [] 1 "2024-01-01" [] [] true
    (some "Unknown") none (by decide) (by decide) (by decide)

/-! ### C10 — submitting against a premise id absent from the store -/

theorem updateFirstById_append {pid : Nat} {l : List Premise} {q : Premise}
    (hl : ∀ p ∈ l, p.id ≠ pid) (hq : q.id = pid) (f : Premise → Premise) :
    updateFirstById pid f (l ++ [q]) = l ++ [f q] := by
  induction l with
  | nil => simp [updateFirstById, hq]
  | cons p ps ih =>
    have hp : p.id ≠ pid := hl p (List.mem_cons_self p ps)
    simp only [List.cons_append, updateFirstById, if_neg hp]
    exact congrArg (fun l => p :: l) (ih (fun r hr => hl r (List.mem_cons_of_mem p hr)))

theorem updateFirstById_exists {pid : Nat} {P : Premise → Prop}
    {l : List Premise} (f : Premise → Premise)
    (hex : ∃ p ∈ l, P p) (hpres : ∀ x, P x → P (f x)) :
    ∃ p ∈ updateFirstById pid f l, P p := by
  induction l with
  | nil => obtain ⟨p, hp, _⟩ := hex; cases hp
  | cons y ys ih =>
    obtain ⟨p, hp, hPp⟩ := hex
    by_cases hy : y.id = pid
    · rw [updateFirstById, if_pos hy]
      rcases List.mem_cons.mp hp with rfl | htl
      · exact ⟨f p, List.mem_cons_self _ _, hpres p hPp⟩
      · exact ⟨p, List.mem_cons_of_mem _ htl, hPp⟩
    · rw [updateFirstById, if_neg hy]
      rcases List.mem_cons.mp hp with rfl | htl
      · exact ⟨p, List.mem_cons_self _ _, hPp⟩
      · obtain ⟨r, hr, hPr⟩ := ih ⟨p, htl, hPp⟩
        exact ⟨r, List.mem_cons_of_mem _ hr, hPr⟩

/-- C10: a submission naming a premise id absent from the store does not
fail: the path creates a new premise record with placeholder static
attributes (external store empty), whose observation history is exactly the
submitted observation, and the handler returns the success payload. -/
theorem c10_missing_premise_created (cfg : ObsConfig) (premises : List Premise)
    (pid : Nat) (obs_date : String) (obs_data : List String)
    (dvs : List (String × String)) (ns : Bool) (fd : Option String)
    (hmiss : ∀ p ∈ premises, p.id ≠ pid) (hpid : pid ≠ 0) (hdate : obs_date ≠ "")
    (hcoh : (save_observation_ps2 cfg premises pid obs_date obs_data dvs ns none).filter
      (inCohort fd) ≠ []) :
    ∃ store, save_observation_endpoint cfg premises pid obs_date obs_data dvs ns fd none false
        = SaveResult.responded true store ∧
      ∃ p ∈ store, p.id = pid ∧ p.name = "Premise " ++ toString pid ∧
        p.category = "Unknown" ∧ p.region = "Unknown" ∧ p.district = "Unknown" ∧
        p.location = "Unknown" ∧
        p.observations = [mkObservation cfg obs_date obs_data dvs ns] := by
  have hend := (save_observation_responses cfg premises pid obs_date
    obs_data dvs ns fd none hpid hdate hcoh).2
  refine ⟨_, hend, ?_⟩
  set obs := mkObservation cfg obs_date obs_data dvs ns with hobs
  set P : Premise → Prop := fun p => p.id = pid ∧ p.name = "Premise " ++ toString pid ∧
    p.category = "Unknown" ∧ p.region = "Unknown" ∧ p.district = "Unknown" ∧
    p.location = "Unknown" ∧ p.observations = [obs] with hP
  have hany : premises.any (fun p => p.id == pid) = false := by
    rw [List.any_eq_false]
    intro p hp
    simpa using hmiss p hp
  have hps2 : save_observation_ps2 cfg premises pid obs_date obs_data dvs ns none
      = premises ++ [updateAggregates
          { newPremise pid none with observations := [] ++ [obs] }] := by
    rw [save_observation_ps2]
    simp only [hany, if_false, Bool.false_eq_true]
    exact updateFirstById_append hmiss rfl _
  have hnew : P (updateAggregates { newPremise pid none with observations := [] ++ [obs] }) := by
    refine ⟨rfl, rfl, rfl, rfl, rfl, rfl, rfl⟩
  have hex2 : ∃ p ∈ save_observation_ps2 cfg premises pid obs_date obs_data dvs ns none, P p := by
    rw [hps2]
    exact ⟨_, List.mem_append_right premises (List.mem_cons_self _ _), hnew⟩
  have hrank : ∃ p ∈ rankRelative
      (save_observation_ps2 cfg premises pid obs_date obs_data dvs ns none) fd, P p := by
    obtain ⟨p, hp, hPp⟩ := hex2
    rw [rankRelative]
    refine ⟨_, List.mem_map_of_mem _ hp, ?_⟩
    by_cases hc : inCohort fd p
    · simp only [hc, if_true]
      exact ⟨hPp.1, hPp.2.1, hPp.2.2.1, hPp.2.2.2.1, hPp.2.2.2.2.1,
        hPp.2.2.2.2.2.1, hPp.2.2.2.2.2.2⟩
    · simp only [hc, if_false]
      exact hPp
  exact updateFirstById_exists _ hrank (fun x hx =>
    ⟨hx.1, hx.2.1, hx.2.2.1, hx.2.2.2.1, hx.2.2.2.2.1, hx.2.2.2.2.2.1, hx.2.2.2.2.2.2⟩)

/-- C10, witnessed: submitting observation flags for premise 1 against an
empty store with no external row creates `"Premise 1"` with "Unknown"
attributes and a one-element history, and the endpoint reports success. -/
theorem c10_witness :
    ∃ store, save_observation_endpoint cfgW [] 1 "2024-01-01" ["obsGot"]
        [("obsGot", "500")] false none none false = SaveResult.responded true store ∧
      ∃ p ∈ store, p.id = 1 ∧ p.name = "Premise " ++ toString 1 ∧
        p.category = "Unknown" ∧ p.region = "Unknown" ∧ p.district = "Unknown" ∧
        p.location = "Unknown" ∧
        p.observations = [mkObservation cfgW "2024-01-01" ["obsGot"]
          [("obsGot", "500")] false] :=
  c10_missing_premise_created cfgW [] 1 "2024-01-01" ["obsGot"] [("obsGot", "500")]
    false none (by intro p hp; cases hp) (by decide) (by decide) (by decide)

/-! ### C6 — idempotence of the bulk recalculation job -/

theorem recalcObsUpdate_idem (cfg : ObsConfig) :
    recalcObsUpdate cfg ∘ recalcObsUpdate cfg = recalcObsUpdate cfg :=
  funext fun _ => rfl

theorem recalc_pvi_after_update (cfg : ObsConfig) :
    (fun o => recalc_pvi_raw cfg o.defect_values) ∘ recalcObsUpdate cfg
      = fun o => recalc_pvi_raw cfg o.defect_values :=
  funext fun _ => rfl

theorem recalc_pass1_snd_stable (cfg : ObsConfig) (m : ℚ) (p : Premise) :
    (recalc_premise_pass1 cfg (recalc_premise_pass2 cfg m
        (recalc_premise_pass1 cfg p).1)).2
      = (recalc_premise_pass1 cfg p).2 := by
  simp only [recalc_premise_pass1, recalc_premise_pass2, List.map_map]
  exact congrArg List.sum (List.map_congr_left (fun o _ => rfl))

theorem recalc_pass2_pass1_stable (cfg : ObsConfig) (m m' : ℚ) (p : Premise) :
    recalc_premise_pass2 cfg m (recalc_premise_pass1 cfg
        (recalc_premise_pass2 cfg m' (recalc_premise_pass1 cfg p).1)).1
      = recalc_premise_pass2 cfg m (recalc_premise_pass1 cfg p).1 := by
  simp only [recalc_premise_pass1, recalc_premise_pass2, List.map_map, List.length_map]
  rw [recalcObsUpdate_idem, recalc_pvi_after_update]

/-- C6: the bulk recalculation job is idempotent — running it twice in
succession under one configuration with no intervening data change produces
exactly the same derived fields (observation rewrites, premise aggregates,
relative PVI and violation rates) as running it once. -/
theorem c6_bulk_job_idempotent (cfg : ObsConfig) (ps : List Premise) :
    recalculate_all cfg (recalculate_all cfg ps) = recalculate_all cfg ps := by
  simp only [recalculate_all, List.map_map]
  have hsnd : ps.map (Prod.snd ∘ recalc_premise_pass1 cfg ∘
      ((fun pr => recalc_premise_pass2 cfg
        ((ps.map (Prod.snd ∘ recalc_premise_pass1 cfg)).foldl max 0) pr.1) ∘
          recalc_premise_pass1 cfg))
      = ps.map (Prod.snd ∘ recalc_premise_pass1 cfg) :=
    List.map_congr_left (fun p _ => recalc_pass1_snd_stable cfg _ p)
  rw [hsnd]
  exact List.map_congr_left (fun p _ => recalc_pass2_pass1_stable cfg _ _ p)

/-! ### C1 — cohort ranking invariant -/

/-- The cohort maximum of the submission-path ranking: maximum total raw
PVI over the district-filtered set. -/
def cohortMax (premises : List Premise) (fd : Option String) : ℚ :=
  listMaxQ ((premises.filter (inCohort fd)).map totalPviOf)

/-- The global maximum unrounded total raw PVI tracked by the bulk job. -/
def bulkMaxg (cfg : ObsConfig) (premises : List Premise) : ℚ :=
  ((premises.map (recalc_premise_pass1 cfg)).map Prod.snd).foldl max 0

theorem inCohort_update (fd : Option String) (x : Premise) (r : ℚ) :
    inCohort fd { x with relative_pvi := r } = inCohort fd x := by
  cases fd <;> rfl

theorem ratio_le_100 {tot m : ℚ} (_htot : 0 ≤ tot) (hle : tot ≤ m) (hm : 0 < m) :
    round2 (tot / m * 100) ≤ 100 := by
  have h1 : tot / m * 100 ≤ 100 := by
    have h2 : tot / m ≤ 1 := (div_le_one hm).mpr hle
    linarith
  calc round2 (tot / m * 100) ≤ round2 100 := round2_mono h1
    _ = 100 := round2_hundred

theorem rank_ratio_le_100 {tot m : ℚ} (htot : 0 ≤ tot) (hle : tot ≤ m) :
    round2 (tot / (if m = 0 then 1 else m) * 100) ≤ 100 := by
  by_cases hm : m = 0
  · have ht0 : tot = 0 := le_antisymm (hm ▸ hle) htot
    rw [if_pos hm, ht0]
    norm_num [round2_zero]
  · rw [if_neg hm]
    exact ratio_le_100 htot hle (lt_of_le_of_ne (le_trans htot hle) (Ne.symm hm))

theorem totalPviOf_nonneg {p : Premise} (h : ∀ o ∈ p.observations, (0:ℚ) ≤ o.pvi_raw) :
    0 ≤ totalPviOf p := by
  apply List.sum_nonneg
  intro q hq
  obtain ⟨o, ho, rfl⟩ := List.mem_map.mp hq
  exact h o ho

theorem pass1_obs_pvi_sum (cfg : ObsConfig) (x : Premise) :
    (((recalc_premise_pass1 cfg x).1.observations).map (·.pvi_raw)).sum
      = (recalc_premise_pass1 cfg x).2 := by
  simp only [recalc_premise_pass1, List.map_map]
  apply congrArg List.sum
  apply List.map_congr_left
  intro o _
  exact round2_recalc_pvi_raw cfg o.defect_values

theorem pass1_snd_nonneg (cfg : ObsConfig) (x : Premise) :
    0 ≤ (recalc_premise_pass1 cfg x).2 := by
  apply List.sum_nonneg
  intro q hq
  obtain ⟨o, _, rfl⟩ := List.mem_map.mp hq
  exact recalc_pvi_raw_nonneg cfg o.defect_values

theorem pass1_snd_le_bulkMaxg (cfg : ObsConfig) {qs : List Premise} {x : Premise}
    (hx : x ∈ qs) : (recalc_premise_pass1 cfg x).2 ≤ bulkMaxg cfg qs :=
  foldl_max_le_of_mem 0
    (List.mem_map_of_mem Prod.snd (List.mem_map_of_mem (recalc_premise_pass1 cfg) hx))

theorem recalculate_all_mem_inv {cfg : ObsConfig} {qs : List Premise} {q : Premise}
    (hq : q ∈ recalculate_all cfg qs) :
    ∃ x ∈ qs, q = recalc_premise_pass2 cfg (bulkMaxg cfg qs)
      (recalc_premise_pass1 cfg x).1 := by
  simp only [recalculate_all] at hq
  obtain ⟨pr, hpr, rfl⟩ := List.mem_map.mp hq
  obtain ⟨x, hx, rfl⟩ := List.mem_map.mp hpr
  exact ⟨x, hx, rfl⟩

theorem mem_recalculate_all (cfg : ObsConfig) {qs : List Premise} {x : Premise}
    (hx : x ∈ qs) :
    recalc_premise_pass2 cfg (bulkMaxg cfg qs) (recalc_premise_pass1 cfg x).1
      ∈ recalculate_all cfg qs := by
  simp only [recalculate_all]
  exact List.mem_map_of_mem _ (List.mem_map_of_mem (recalc_premise_pass1 cfg) hx)

/-- C1: in every cohort over which relative PVI is recomputed — the
district-filtered set of the submission path (over a store whose recorded
per-observation `pvi_raw` values are non-negative, as the configuration
contract guarantees), and the full premise list of the bulk job
(unconditionally) — every member's `relative_pvi` is at most 100, and when
the cohort's maximum total raw PVI is positive some member attaining the
maximum receives exactly 100. -/
theorem c1_cohort_ranking_invariant (premises : List Premise) (fd : Option String)
    (cfg : ObsConfig) (qs : List Premise)
    (hnn : ∀ p ∈ premises, ∀ o ∈ p.observations, (0:ℚ) ≤ o.pvi_raw) :
    (∀ p ∈ rankRelative premises fd, inCohort fd p = true → p.relative_pvi ≤ 100) ∧
    (0 < cohortMax premises fd →
      ∃ p ∈ rankRelative premises fd, inCohort fd p = true ∧
        totalPviOf p = cohortMax premises fd ∧ p.relative_pvi = 100) ∧
    (∀ q ∈ recalculate_all cfg qs, q.relative_pvi ≤ 100) ∧
    (0 < bulkMaxg cfg qs → ∃ q ∈ recalculate_all cfg qs, q.relative_pvi = 100) := by
  refine ⟨?_, ?_, ?_, ?_⟩
  · intro p hp hpc
    simp only [rankRelative] at hp
    obtain ⟨x, hx, rfl⟩ := List.mem_map.mp hp
    by_cases hc : inCohort fd x = true
    · rw [if_pos hc]
      show round2 (totalPviOf x / (if cohortMax premises fd = 0 then 1
        else cohortMax premises fd) * 100) ≤ 100
      have htot : 0 ≤ totalPviOf x := totalPviOf_nonneg (hnn x hx)
      have hle : totalPviOf x ≤ cohortMax premises fd :=
        listMaxQ_le_of_mem (List.mem_map_of_mem totalPviOf
          (List.mem_filter.mpr ⟨hx, hc⟩))
      exact rank_ratio_le_100 htot hle
    · rw [if_neg hc] at hpc
      exact absurd hpc hc
  · intro hpos
    have hne : (premises.filter (inCohort fd)).map totalPviOf ≠ [] := by
      intro h
      rw [cohortMax, h] at hpos
      simp [listMaxQ] at hpos
    obtain ⟨x, hxf, hxeq⟩ := List.mem_map.mp (listMaxQ_mem hne)
    have hx : x ∈ premises := (List.mem_filter.mp hxf).1
    have hcx : inCohort fd x = true := (List.mem_filter.mp hxf).2
    refine ⟨(if inCohort fd x = true then
        { x with relative_pvi := round2 (totalPviOf x / (if cohortMax premises fd = 0
            then 1 else cohortMax premises fd) * 100) } else x), ?_, ?_⟩
    · simp only [rankRelative]
      exact List.mem_map_of_mem _ hx
    · rw [if_pos hcx]
      have hmne : cohortMax premises fd ≠ 0 := ne_of_gt hpos
      have hxeq' : totalPviOf x = cohortMax premises fd := hxeq
      refine ⟨by rw [inCohort_update]; exact hcx, hxeq', ?_⟩
      show round2 (totalPviOf x / (if cohortMax premises fd = 0 then 1
        else cohortMax premises fd) * 100) = 100
      rw [if_neg hmne, hxeq', div_self hmne, one_mul]
      exact round2_hundred
  · intro q hq
    obtain ⟨x, hx, rfl⟩ := recalculate_all_mem_inv hq
    show (if 0 < bulkMaxg cfg qs then round2 ((((recalc_premise_pass1 cfg x).1.observations).map
      (·.pvi_raw)).sum / bulkMaxg cfg qs * 100) else 0) ≤ 100
    by_cases hm : 0 < bulkMaxg cfg qs
    · rw [if_pos hm, pass1_obs_pvi_sum]
      exact ratio_le_100 (pass1_snd_nonneg cfg x) (pass1_snd_le_bulkMaxg cfg hx) hm
    · rw [if_neg hm]
      norm_num
  · intro hpos
    rcases foldl_max_eq_or_mem ((qs.map (recalc_premise_pass1 cfg)).map Prod.snd) 0
      with h0 | hmem
    · rw [bulkMaxg, h0] at hpos
      exact absurd hpos (by norm_num)
    · obtain ⟨pr, hpr, hpr2⟩ := List.mem_map.mp hmem
      obtain ⟨x, hx, rfl⟩ := List.mem_map.mp hpr
      have hpr2' : (recalc_premise_pass1 cfg x).2 = bulkMaxg cfg qs := hpr2
      refine ⟨_, mem_recalculate_all cfg hx, ?_⟩
      show (if 0 < bulkMaxg cfg qs then round2 ((((recalc_premise_pass1 cfg x).1.observations).map
        (·.pvi_raw)).sum / bulkMaxg cfg qs * 100) else 0) = 100
      rw [if_pos hpos, pass1_obs_pvi_sum, hpr2', div_self (ne_of_gt hpos), one_mul]
      exact round2_hundred

/-- A stored observation with magnitude 10 on `got`, `pvi_raw` 5. -/
def obsA : Observation := ⟨"2024-01-01", ["GOT defects"], [("got", 10)], 30, 5, 1⟩

/-- A stored observation with `pvi_raw` 2. -/
def obsB : Observation := ⟨"2024-02-01", ["GOT defects"], [("got", 4)], 30, 2, 1⟩

/-- A premise with total raw PVI 5. -/
def pA : Premise :=
  ⟨1, "A", "Pharmacy", "R", "D1", "L", "", "", [obsA], 30, 30, 5, 5, 1, 1, 0, 0, 0⟩

/-- A premise with total raw PVI 2. -/
def pB : Premise :=
  ⟨2, "B", "Pharmacy", "R", "D1", "L", "", "", [obsB], 30, 30, 2, 2, 1, 1, 0, 0, 0⟩

theorem pApB_nonneg : ∀ p ∈ [pA, pB], ∀ o ∈ p.observations, (0:ℚ) ≤ o.pvi_raw := by
  intro p hp o ho
  fin_cases hp <;> simp only [pA, pB] at ho <;> fin_cases ho <;>
    norm_num [obsA, obsB]

theorem cohortMax_pApB_pos : 0 < cohortMax [pA, pB] none := by
  have h : cohortMax [pA, pB] none = 5 := by
    simp [cohortMax, listMaxQ, inCohort, totalPviOf, pA, pB, obsA, obsB,
      List.filter, max_def]
    norm_num
  rw [h]
  norm_num

theorem bulkMaxg_pA_pos : 0 < bulkMaxg cfgW [pA] := by
  have h : bulkMaxg cfgW [pA] = 5 := by
    simp [bulkMaxg, recalc_premise_pass1, recalc_pvi_raw, recalcPviTerm, cfgW,
      pA, obsA, alookup, max_def]
    norm_num
  rw [h]
  norm_num

/-- C1, witnessed: a two-premise store (totals 2 and 5) ranked globally
gives 40 and 100, and a one-premise bulk run with a positive-weight
configuration attains 100; all bounds of the invariant hold there. -/
theorem c1_witness :
    (∀ p ∈ rankRelative [pA, pB] none, inCohort none p = true → p.relative_pvi ≤ 100) ∧
    (∃ p ∈ rankRelative [pA, pB] none, inCohort none p = true ∧
      totalPviOf p = cohortMax [pA, pB] none ∧ p.relative_pvi = 100) ∧
    (∀ q ∈ recalculate_all cfgW [pA], q.relative_pvi ≤ 100) ∧
    (∃ q ∈ recalculate_all cfgW [pA], q.relative_pvi = 100) := by
  obtain ⟨h1, h2, h3, h4⟩ := c1_cohort_ranking_invariant [pA, pB] none cfgW [pA] pApB_nonneg
  exact ⟨h1, h2 cohortMax_pApB_pos, h3, h4 bulkMaxg_pA_pos⟩

/-! ### C2 — the bulk job's recomputed intensity versus the §4.2 definition -/

/-- C2 counterexample: under `cfgW` (label "GOT defects" distinct from key
"got"), a submission selecting `got` without a magnitude stores intensity 30,
but the bulk job's rewrite recomputes intensity 0 for the same stored
observation under the same configuration — the key is neither among the
recorded magnitude keys nor equal to the stored display label. -/
theorem c2_counterexample :
    (mkObservation cfgW "2024-01-01" ["obsGot"] [] false).intensity = 30 ∧
    (recalcObsUpdate cfgW (mkObservation cfgW "2024-01-01" ["obsGot"] [] false)).intensity = 0 ∧
    (30 : Int) ≠ 0 :=
  ⟨rfl, rfl, by decide⟩

theorem alookup_some_mem {α : Type} {k : String} {v : α} :
    ∀ {l : List (String × α)}, alookup k l = some v → (k, v) ∈ l := by
  intro l
  induction l with
  | nil => intro h; cases h
  | cons kv rest ih =>
    obtain ⟨k', v'⟩ := kv
    intro h
    by_cases hk : k' = k
    · rw [alookup, if_pos hk] at h
      cases h
      subst hk
      exact List.mem_cons_self _ _
    · rw [alookup, if_neg hk] at h
      exact List.mem_cons_of_mem _ (ih h)

/-- Every display label of a normalized observation is the label of some
configured parameter. -/
theorem normalize_loop_labels_mem (cfg : ObsConfig) (dvs : List (String × String)) :
    ∀ (l : List String) (lab : String),
      lab ∈ (normalize_loop cfg dvs l).obs_readable →
      ∃ kp ∈ cfg.parameters, lab = kp.2.label := by
  intro l
  induction l with
  | nil => intro lab h; cases h
  | cons ok rest ih =>
    intro lab h
    rcases h1 : alookup ok frontend_to_param with _ | pk
    · simp only [normalize_loop, h1] at h
      exact ih lab h
    · rcases h2 : alookup pk cfg.parameters with _ | pii
      · simp only [normalize_loop, h1, h2] at h
        exact ih lab h
      · rcases h3 : alookup ok dvs with _ | raw
        · simp only [normalize_loop, h1, h2, h3] at h
          rcases List.mem_cons.mp h with rfl | htl
          · exact ⟨(pk, pii), alookup_some_mem h2, rfl⟩
          · exact ih lab htl
        · by_cases hraw : raw = ""
          · simp only [normalize_loop, h1, h2, h3, if_pos hraw] at h
            rcases List.mem_cons.mp h with rfl | htl
            · exact ⟨(pk, pii), alookup_some_mem h2, rfl⟩
            · exact ih lab htl
          · simp only [normalize_loop, h1, h2, h3, if_neg hraw] at h
            rcases List.mem_cons.mp h with rfl | htl
            · exact ⟨(pk, pii), alookup_some_mem h2, rfl⟩
            · exact ih lab htl

/-- A display label that is no parameter's key does not switch any
parameter on in the bulk job's intensity recomputation. -/
theorem recalc_intensity_cons_label (cfg : ObsConfig) (lab : String)
    (L : List String) (S : List (String × Nat))
    (hl : ∀ kp ∈ cfg.parameters, kp.1 ≠ lab) :
    recalc_intensity cfg (lab :: L) S = recalc_intensity cfg L S := by
  unfold recalc_intensity
  congr 1
  apply List.map_congr_left
  intro kp hkp
  have hne : (kp.1 == lab) = false := beq_eq_false_iff_ne.mpr (hl kp hkp)
  rw [List.contains_cons, hne, Bool.false_or]

theorem intensity_sum_insert (pk : String) (pi : ParamInfo) (v : Nat)
    (L : List String) (S : List (String × Nat)) :
    ∀ ps : List (String × ParamInfo), alookup pk ps = some pi →
      (ps.map Prod.fst).Nodup → alookup pk S = none → L.contains pk = false →
      (ps.map (fun ki =>
        if (alookup ki.1 ((pk, v) :: S)).isSome || L.contains ki.1
        then ki.2.intensity else 0)).sum
      = pi.intensity + (ps.map (fun ki =>
        if (alookup ki.1 S).isSome || L.contains ki.1 then ki.2.intensity else 0)).sum := by
  intro ps
  induction ps with
  | nil => intro h; cases h
  | cons kq rest ih =>
    obtain ⟨k0, q0⟩ := kq
    intro hlk hnd hS hL
    by_cases hk : k0 = pk
    · subst hk
      rw [alookup, if_pos rfl] at hlk
      cases hlk
      have hnotin : k0 ∉ rest.map Prod.fst := by
        simp only [List.map_cons, List.nodup_cons] at hnd
        exact hnd.1
      have htail : rest.map (fun ki =>
          if (alookup ki.1 ((k0, v) :: S)).isSome || L.contains ki.1
          then ki.2.intensity else 0)
          = rest.map (fun ki =>
          if (alookup ki.1 S).isSome || L.contains ki.1 then ki.2.intensity else 0) := by
        apply List.map_congr_left
        intro ki hki
        have hne : k0 ≠ ki.1 := fun h =>
          hnotin (h ▸ List.mem_map_of_mem Prod.fst hki)
        rw [alookup, if_neg hne]
      simp only [List.map_cons, List.sum_cons, htail]
      have h1 : alookup k0 ((k0, v) :: S) = some v := by rw [alookup, if_pos rfl]
      rw [h1, hS, hL]
      simp
    · have hlk' : alookup pk rest = some pi := by
        rw [alookup, if_neg hk] at hlk
        exact hlk
      have hnd' : (rest.map Prod.fst).Nodup := by
        simp only [List.map_cons, List.nodup_cons] at hnd
        exact hnd.2
      have hhead : alookup k0 ((pk, v) :: S) = alookup k0 S := by
        rw [alookup, if_neg (fun h => hk h.symm)]
      simp only [List.map_cons, List.sum_cons]
      rw [hhead, ih hlk' hnd' hS hL]
      omega

/-- Inserting a magnitude entry for a configured, not-yet-counted parameter
adds exactly that parameter's intensity to the bulk job's recomputation. -/
theorem recalc_intensity_insert (cfg : ObsConfig) (pk : String) (pi : ParamInfo)
    (v : Nat) (L : List String) (S : List (String × Nat))
    (hlk : alookup pk cfg.parameters = some pi)
    (hnd : (cfg.parameters.map Prod.fst).Nodup)
    (hS : alookup pk S = none) (hL : L.contains pk = false) :
    recalc_intensity cfg L ((pk, v) :: S) = pi.intensity + recalc_intensity cfg L S :=
  intensity_sum_insert pk pi v L S cfg.parameters hlk hnd hS hL

theorem recalc_intensity_nil (cfg : ObsConfig) : recalc_intensity cfg [] [] = 0 := by
  unfold recalc_intensity
  have h : ∀ ps : List (String × ParamInfo),
      (ps.map (fun ki => if (alookup ki.1 ([] : List (String × Nat))).isSome
        || ([] : List String).contains ki.1 then ki.2.intensity else 0)).sum = 0 := by
    intro ps
    induction ps with
    | nil => rfl
    | cons kq rest ih =>
      rw [List.map_cons, List.sum_cons, ih]
      rfl
  exact h cfg.parameters

/-- Under the stated side conditions, the bulk job's intensity recomputation
of a normalized observation reproduces the submission-path intensity. -/
theorem recalc_intensity_eq_normalized (cfg : ObsConfig)
    (dvs : List (String × String))
    (hnd_p : (cfg.parameters.map Prod.fst).Nodup)
    (hlabel : ∀ kp ∈ cfg.parameters, ∀ kq ∈ cfg.parameters, kp.1 ≠ kq.2.label) :
    ∀ l : List String,
      (l.filterMap (fun ok => alookup ok frontend_to_param)).Nodup →
      (∀ ok ∈ l, ((alookup ok frontend_to_param).bind
        (fun pk => alookup pk cfg.parameters)).isSome = true →
        (alookup ok dvs).getD "" ≠ "") →
      recalc_intensity cfg (normalize_loop cfg dvs l).obs_readable
          (normalize_loop cfg dvs l).obs_values_saved
        = (normalize_loop cfg dvs l).intensity := by
  intro l
  induction l with
  | nil =>
    intro _ _
    exact recalc_intensity_nil cfg
  | cons ok rest ih =>
    intro hnd hmag
    rcases h1 : alookup ok frontend_to_param with _ | pk
    · have hnd' : (rest.filterMap (fun ok => alookup ok frontend_to_param)).Nodup := by
        simpa only [List.filterMap_cons, h1] using hnd
      simp only [normalize_loop, h1]
      exact ih hnd' (fun ok' h => hmag ok' (List.mem_cons_of_mem _ h))
    · have hnodup_cons : (pk :: rest.filterMap
          (fun ok => alookup ok frontend_to_param)).Nodup := by
        simpa only [List.filterMap_cons, h1] using hnd
      have hnd0 : pk ∉ rest.filterMap (fun ok => alookup ok frontend_to_param) :=
        (List.nodup_cons.mp hnodup_cons).1
      have hnd' := (List.nodup_cons.mp hnodup_cons).2
      have hmag' := fun ok' h => hmag ok' (List.mem_cons_of_mem _ h)
      rcases h2 : alookup pk cfg.parameters with _ | pii
      · simp only [normalize_loop, h1, h2]
        exact ih hnd' hmag'
      · have hraw0 : (alookup ok dvs).getD "" ≠ "" := by
          apply hmag ok (List.mem_cons_self ok rest)
          rw [h1]
          simp [h2]
        obtain ⟨raw, h3, hrne⟩ : ∃ raw, alookup ok dvs = some raw ∧ raw ≠ "" := by
          rcases h3 : alookup ok dvs with _ | raw
          · rw [h3] at hraw0
            simp at hraw0
          · refine ⟨raw, rfl, ?_⟩
            rw [h3] at hraw0
            simpa using hraw0
        have hpkmem : (pk, pii) ∈ cfg.parameters := alookup_some_mem h2
        have hSnone : alookup pk (normalize_loop cfg dvs rest).obs_values_saved = none := by
          rcases hS : alookup pk (normalize_loop cfg dvs rest).obs_values_saved with _ | v
          · rfl
          · exfalso
            obtain ⟨_, ok', hok', hok2, _⟩ :=
              normalize_loop_saved_mem cfg dvs rest pk v (alookup_some_mem hS)
            exact hnd0 (List.mem_filterMap.mpr ⟨ok', hok', hok2⟩)
        have hLnone : ((normalize_loop cfg dvs rest).obs_readable).contains pk = false := by
          by_contra hcon
          have hmem : pk ∈ (normalize_loop cfg dvs rest).obs_readable :=
            List.mem_of_elem_eq_true (Bool.of_not_eq_false hcon)
          obtain ⟨kq, hkq, hlab⟩ := normalize_loop_labels_mem cfg dvs rest pk hmem
          exact hlabel (pk, pii) hpkmem kq hkq hlab
        simp only [normalize_loop, h1, h2, h3, if_neg hrne]
        rw [recalc_intensity_cons_label cfg pii.label _ _
          (fun kp hkp => hlabel kp hkp (pk, pii) hpkmem)]
        rw [recalc_intensity_insert cfg pk pii _ _ _ h2 hnd_p hSnone hLnone]
        rw [ih hnd' hmag']

/-- C2 amended: the bulk job recomputes intensity by counting a parameter
exactly when its key appears among the observation's recorded magnitude
keys or verbatim in its stored display labels; this reproduces the
§4.2/submission-path intensity only under side conditions — duplicate-free
parameter keys and resolved flags, no parameter key equal to any display
label, and a truthy magnitude recorded for every selected parameter —
otherwise the two values differ (cf. the counterexample). -/
theorem c2_amended_bulk_intensity (cfg : ObsConfig) (obs_date : String)
    (obs_data : List String) (dvs : List (String × String))
    (hnd_p : (cfg.parameters.map Prod.fst).Nodup)
    (hlabel : ∀ kp ∈ cfg.parameters, ∀ kq ∈ cfg.parameters, kp.1 ≠ kq.2.label)
    (hnd_r : (obs_data.filterMap (fun ok => alookup ok frontend_to_param)).Nodup)
    (hmag : ∀ ok ∈ obs_data, ((alookup ok frontend_to_param).bind
      (fun pk => alookup pk cfg.parameters)).isSome = true →
      (alookup ok dvs).getD "" ≠ "") :
    (recalcObsUpdate cfg (mkObservation cfg obs_date obs_data dvs false)).intensity
      = (mkObservation cfg obs_date obs_data dvs false).intensity :=
  recalc_intensity_eq_normalized cfg dvs hnd_p hlabel obs_data hnd_r hmag

/-- C2 amended, witnessed: with a magnitude recorded for the selected
defect, the bulk job's recomputed intensity matches the stored one. -/
theorem c2_amended_witness :
    (recalcObsUpdate cfgW (mkObservation cfgW "2024-01-01" ["obsGot"]
        [("obsGot", "10")] false)).intensity
      = (mkObservation cfgW "2024-01-01" ["obsGot"] [("obsGot", "10")] false).intensity :=
  c2_amended_bulk_intensity cfgW "2024-01-01" ["obsGot"] [("obsGot", "10")]
    (by decide) (by decide) (by decide) (by decide)

end ISRT
